import Mathlib

/-!
Verification of the think-swapper trading bot repository.

The repository contains several near-duplicate bot variants. The claims
settle against these sources:
  * the DCA bot (part_009): position ledger (`addPurchase`, `clearPosition`)
    and the cost-basis sell gate inside `trySellIfProfitable`;
  * the flip-flop bot (part_000): the balance-poll confirmation fallback
    inside `buyOneDollar`;
  * the gas-reserve bot (part_001): the reserve clamp inside its
    `trySellIfProfitable`;
  * hybrid-bot.js: `emaUpdate`, the three signal generators, and the
    triangular arbitrage simulator `simulateTriangle`.

Machine floating point is modelled by exact rationals; JS float literals
such as 1e-9 become the exact rationals they denote. JS string tags such
as action names and skip reasons become inductive constructors. Quoting,
balance lookup and trade submission are external collaborators and are
modelled as oracle parameters; a thrown/absent result is `Option.none`.
-/

namespace ThinkSwapper

/-! ## Position ledger (part_009, the DCA bot)

JS state schema per symbol: `{ units, cost_usdt }`. -/

/-- One tracked per-asset position: held units and cumulative cost. -/
structure TokenPos where
  units : ℚ
  cost_usdt : ℚ
  deriving DecidableEq, Repr

/-- part_009 `addPurchase(symbol, units, costUsd)`:
`STATE[symbol] = { units: s.units + units, cost_usdt: s.cost_usdt + costUsd }`. -/
def addPurchase (s : TokenPos) (units costUsd : ℚ) : TokenPos :=
  { units := s.units + units, cost_usdt := s.cost_usdt + costUsd }

/-- part_009 `clearPosition(symbol)`: `STATE[symbol] = { units: 0, cost_usdt: 0 }`. -/
def clearPosition (_s : TokenPos) : TokenPos :=
  { units := 0, cost_usdt := 0 }

/-! ## The sell gate of part_009 `trySellIfProfitable` -/

/-- Result of the SDK quote call: the `outTokenAmount` and the fee tier
(`none` models a missing/null `feeTier`). -/
structure RawQuote where
  outTokenAmount : ℚ
  feeTier : Option ℕ
  deriving DecidableEq, Repr

/-- part_009 `quoteExactIn(IN, OUT, amountStr)`: returns null unless the
amount is positive, the SDK result exists, its output is positive and its
fee tier is present. A thrown SDK error is modelled as `none`. -/
def quoteExactIn (amountIn : ℚ) (sdkResult : Option RawQuote) : Option RawQuote :=
  if ¬ (0 < amountIn) then none
  else
    match sdkResult with
    | none => none
    | some q => if 0 < q.outTokenAmount ∧ q.feeTier.isSome then some q else none

/-- The decision taken by the sell gate; the JS code logs a skip reason and
returns, or proceeds to submit the sell. -/
inductive SellDecision where
  | allow
  | denyNothingTracked
  | denyNoQuote
  | denyQuoteZero
  | denyBelowThreshold
  deriving DecidableEq, Repr

/-- The decision logic of part_009 `trySellIfProfitable` (lines 278-311):
requires a positive on-chain quantity and positive tracked units and cost,
a valid quote, then allows only when
`usdtOut + 1e-9 >= trackedCost * (1 + (MIN_PROFIT_BPS + PROFIT_BUFFER_BPS)/10000)`. -/
def trySellIfProfitable (minProfitBps profitBufferBps : ℚ)
    (st : TokenPos) (qtyOnChain : ℚ) (sdkQuote : Option RawQuote) : SellDecision :=
  if ¬ (0 < qtyOnChain) ∨ ¬ (0 < st.units) ∨ ¬ (0 < st.cost_usdt) then
    .denyNothingTracked
  else
    match quoteExactIn qtyOnChain sdkQuote with
    | none => .denyNoQuote
    | some q =>
      let usdtOut := q.outTokenAmount
      if ¬ (0 < usdtOut) then .denyQuoteZero
      else
        let totalBps := minProfitBps + profitBufferBps
        let threshold := st.cost_usdt * (1 + totalBps / 10000)
        if usdtOut + 1/1000000000 < threshold then .denyBelowThreshold
        else .allow

/-! ## Ledger operation traces (for the reachability claim) -/

/-- A ledger operation on one tracked asset: a recorded buy or a clear. -/
inductive LedgerOp where
  | buy (units costUsd : ℚ)
  | clear
  deriving DecidableEq, Repr

/-- Apply one operation to a position, as part_009 does. -/
def applyLedgerOp (s : TokenPos) : LedgerOp → TokenPos
  | .buy u c => addPurchase s u c
  | .clear => clearPosition s

/-- Apply a whole trace of operations in order. -/
def applyLedgerOps (s : TokenPos) (ops : List LedgerOp) : TokenPos :=
  ops.foldl applyLedgerOp s

/-- The call-site guards of part_009 `buyOneDollar`: `addPurchase` is only
invoked with `outUnits > 0` (checked at line 355) and `usd > 0`
(checked at line 340). -/
def LedgerOpValid : LedgerOp → Prop
  | .buy u c => 0 < u ∧ 0 < c
  | .clear => True

/-! ## EMA tracking (hybrid-bot.js) -/

/-- hybrid-bot.js line 88:
`function emaUpdate(prev, p, alpha){ return prev==null ? p : alpha*p + (1-alpha)*prev; }`.
The stored EMA is `null` before the first observation. -/
def emaUpdate (prev : Option ℚ) (p alpha : ℚ) : ℚ :=
  match prev with
  | none => p
  | some v => alpha * p + (1 - alpha) * v

/-- The EMA after observing a whole price sequence, starting from the
`null` seed state, updating once per observation as `tick` does. -/
def emaSeries (alpha : ℚ) (ps : List ℚ) : Option ℚ :=
  ps.foldl (fun acc p => some (emaUpdate acc p alpha)) none

/-! ## Signal generators (hybrid-bot.js) -/

/-- The JS action string tags BUY / SELL / NONE. -/
inductive SigAction where
  | BUY
  | SELL
  | NONE
  deriving DecidableEq, Repr

/-- hybrid-bot.js `momentumSignal(price, ema)` (lines 237-241); the reason
text attached to the JS result is elided. -/
def momentumSignal (momentumTh : ℚ) (price ema : ℚ) : SigAction :=
  let dev := (price - ema) / ema
  if dev > momentumTh then .BUY
  else if dev < -momentumTh then .SELL
  else .NONE

/-- hybrid-bot.js `meanRevertSignal(price, ema)` (lines 243-248); reason
text elided. -/
def meanRevertSignal (meanRevTh : ℚ) (price ema : ℚ) : SigAction :=
  let dev := (price - ema) / ema
  if dev > meanRevTh then .SELL
  else if dev < -meanRevTh then .BUY
  else .NONE

/-- The swing extremes found by hybrid-bot.js `findSwing`. -/
structure Swing where
  high : ℚ
  highAt : ℕ
  low : ℚ
  lowAt : ℕ
  deriving DecidableEq, Repr

/-- JS `prices.slice(-lookback)`: the last `lookback` entries; `slice(-0)`
is `slice(0)`, the whole array. -/
def sliceLast (xs : List ℚ) (n : ℕ) : List ℚ :=
  if n = 0 then xs else xs.drop (xs.length - n)

/-- The scan loop of `findSwing` (line 253). The JS loop starts from
`hi=-Infinity, lo=Infinity`; since every price is a finite number the first
element always becomes both extremes, so we seed the state with the first
element and scan the rest from index 1. Strict comparisons `v>hi` / `v<lo`
keep the first index attaining each extreme. State: (hi, hiIdx, lo, loIdx). -/
def swingScan : List ℚ → ℕ → ℚ × ℕ × ℚ × ℕ → ℚ × ℕ × ℚ × ℕ
  | [], _, st => st
  | v :: rest, i, (hi, hiIdx, lo, loIdx) =>
    let hiSt := if v > hi then (v, i) else (hi, hiIdx)
    let loSt := if v < lo then (v, i) else (lo, loIdx)
    swingScan rest (i + 1) (hiSt.1, hiSt.2, loSt.1, loSt.2)

/-- hybrid-bot.js `findSwing(prices, lookback)` (lines 249-256): takes the
last `lookback` prices, requires at least 5, and reports the extremes with
their indices offset by `base = prices.length - arr.length`. -/
def findSwing (prices : List ℚ) (lookback : ℕ) : Option Swing :=
  let arr := sliceLast prices lookback
  if arr.length < 5 then none
  else
    match arr with
    | [] => none
    | v :: rest =>
      let st := swingScan rest 1 (v, 0, v, 0)
      let base := prices.length - arr.length
      some ⟨st.1, base + st.2.1, st.2.2.1, base + st.2.2.2⟩

/-- The retracement levels of hybrid-bot.js `fibLevels(low, high)`
(lines 257-267). -/
structure FibLevels where
  l382 : ℚ
  l500 : ℚ
  l618 : ℚ
  r382 : ℚ
  r500 : ℚ
  r618 : ℚ
  deriving DecidableEq, Repr

/-- hybrid-bot.js `fibLevels(low, high)`. -/
def fibLevels (low high : ℚ) : FibLevels :=
  let range := high - low
  { l382 := high - range * (382/1000)
    l500 := high - range * (500/1000)
    l618 := high - range * (618/1000)
    r382 := low + range * (382/1000)
    r500 := low + range * (500/1000)
    r618 := low + range * (618/1000) }

/-- hybrid-bot.js `fibonacciSignal(state, price)` (lines 268-283); the ema
argument is the stored `state.ema`, `none` when not yet seeded (the JS
`state.ema ?? price` fallback). Reason text elided. -/
def fibonacciSignal (lookback : ℕ) (prices : List ℚ) (ema : Option ℚ)
    (price : ℚ) : SigAction :=
  match findSwing prices lookback with
  | none => .NONE
  | some swings =>
    let emaV := ema.getD price
    let up := swings.highAt > swings.lowAt ∧ price ≥ emaV
    let down := swings.lowAt > swings.highAt ∧ price ≤ emaV
    let lv := fibLevels swings.low swings.high
    if up then
      if (price ≤ lv.l500 ∧ price ≥ lv.l618) ∨ (price ≤ lv.l382 ∧ price ≥ lv.l500) then
        .BUY
      else .NONE
    else if down then
      if (price ≥ lv.r500 ∧ price ≤ lv.r618) ∨ (price ≥ lv.r382 ∧ price ≤ lv.r500) then
        .SELL
      else .NONE
    else .NONE

/-! ## Triangular arbitrage simulator (hybrid-bot.js `simulateTriangle`)

hybrid-bot.js `quoteExactIn` (lines 121-124) performs no validation: it
converts the SDK output to a number and returns it together with the fee
tier. A rejected quote promise propagates as an exception; the quote oracle
therefore returns `Option (ℚ × ℕ)` where `none` models a throw. Token class
keys are taken from an arbitrary decidable-equality type. -/

/-- One leg of the simulated chain as recorded in the `legs` array. -/
structure ArbLeg (τ : Type) where
  amountIn : ℚ
  amountOut : ℚ
  tokenIn : τ
  tokenOut : τ
  feeTier : ℕ
  deriving DecidableEq, Repr

/-- The record returned by `simulateTriangle`. -/
structure ArbSim (τ : Type) where
  ok : Bool
  profit : ℚ
  profitBps : ℚ
  legs : List (ArbLeg τ)
  finalOut : ℚ
  deriving DecidableEq, Repr

/-- How an evaluation can abort: the thrown path-shape error (line 173),
or a thrown quote on some leg propagating out of the function. -/
inductive ArbError where
  | invalidPath
  | unavailable
  deriving DecidableEq, Repr

/-- hybrid-bot.js `simulateTriangle(startUsd)` (lines 168-191), with the
resolved path tokens `t0..t3` and the min-profit config as parameters.
Throws when the path is not a closed loop; otherwise quotes the three legs
sequentially, each on the previous output, and builds the full record. -/
def simulateTriangle {τ : Type} [DecidableEq τ]
    (quote : τ → τ → ℚ → Option (ℚ × ℕ)) (arbMinProfitBps : ℚ)
    (t0 t1 t2 t3 : τ) (startUsd : ℚ) : Except ArbError (ArbSim τ) :=
  if t0 ≠ t3 then .error .invalidPath
  else
    match quote t0 t1 startUsd with
    | none => .error .unavailable
    | some (out01, fee01) =>
      match quote t1 t2 out01 with
      | none => .error .unavailable
      | some (out12, fee12) =>
        match quote t2 t3 out12 with
        | none => .error .unavailable
        | some (out23, fee23) =>
          let profit := out23 - startUsd
          let profitBps := profit / startUsd * 10000
          .ok
            { ok := decide (profitBps ≥ arbMinProfitBps)
              profit := profit
              profitBps := profitBps
              legs :=
                [ ⟨startUsd, out01, t0, t1, fee01⟩,
                  ⟨out01, out12, t1, t2, fee12⟩,
                  ⟨out12, out23, t2, t3, fee23⟩ ]
              finalOut := out23 }

/-- Token class keys used by the concrete arbitrage scenarios. -/
inductive Token where
  | USDC
  | GALA
  | WETH
  | USDT
  deriving DecidableEq, Repr

/-! ## Execution coordinator: balance-poll confirmation fallback

part_000 `buyOneDollar` (lines 239-269): a single swap submission, then a
primary `pending.wait()`; on wait failure it polls balances 6 times at a
fixed 5-second interval against the snapshot taken before submission.
Ledger discipline from part_009 `buyOneDollar` (lines 366-381):
`addPurchase` runs only after a confirmed outcome; an unconfirmed trade
leaves the ledger untouched and is not re-submitted. -/

/-- The fixed number of fallback polling attempts (`for (let i = 0; i < 6; ...)`). -/
def POLL_MAX_ATTEMPTS : ℕ := 6

/-- The fixed polling interval in milliseconds (`await sleep(5000)`). -/
def POLL_INTERVAL_MS : ℕ := 5000

/-- The per-attempt match test (part_000 lines 260-261): the stable balance
dropped by at least the spent notional within the 1e-6 / 1e-3 epsilons, and
the bought balance increased. -/
def pollMatch (beforeStable beforeBought usd afterStable afterBought : ℚ) : Bool :=
  decide (afterStable + 1/1000000 ≤ beforeStable - usd + 1/1000)
    && decide (afterBought > beforeBought)

/-- The fallback polling loop, reading the (stable, bought) balances at
attempt `i` from the `balAt` oracle, with `fuel` attempts remaining;
returns whether some attempt matched. -/
def pollFrom (beforeStable beforeBought usd : ℚ) (balAt : ℕ → ℚ × ℚ) :
    ℕ → ℕ → Bool
  | _, 0 => false
  | i, fuel + 1 =>
    let after := balAt i
    if pollMatch beforeStable beforeBought usd after.1 after.2 then true
    else pollFrom beforeStable beforeBought usd balAt (i + 1) fuel

/-- How a submitted trade was confirmed, the spec `TradeOutcome` tags. -/
inductive TradeOutcome where
  | confirmedWait
  | confirmedBalancePoll
  | unconfirmed
  deriving DecidableEq, Repr

/-- The confirmation outcome of one submitted buy: primary wait success
confirms via wait; otherwise the capped balance polling loop runs; matching
within the attempts confirms via balance poll, else the trade is
unconfirmed. -/
def buyConfirmOutcome (beforeStable beforeBought usd : ℚ) (waitOk : Bool)
    (balAt : ℕ → ℚ × ℚ) : TradeOutcome :=
  if waitOk then .confirmedWait
  else if pollFrom beforeStable beforeBought usd balAt 0 POLL_MAX_ATTEMPTS then
    .confirmedBalancePoll
  else .unconfirmed

/-- Ledger update after the outcome is known (part_009 lines 366-381 for
the wait-confirmed case; spec section 4.5 extends the same rule to the
poll-confirmed case): confirmed buys record the purchase, an unconfirmed
trade leaves the ledger unchanged. -/
def buyLedgerUpdate (st : TokenPos) (outcome : TradeOutcome)
    (outUnits usd : ℚ) : TokenPos :=
  match outcome with
  | .unconfirmed => st
  | _ => addPurchase st outUnits usd

/-- One full coordinator run for a submitted buy: the outcome, the updated
ledger, and the number of swap submissions performed. The source submits
exactly once, before the primary wait; the fallback loop only reads
balances and never calls `swap` again. -/
def buyOneDollarRun (st : TokenPos) (usd outUnits : ℚ)
    (beforeStable beforeBought : ℚ) (waitOk : Bool) (balAt : ℕ → ℚ × ℚ) :
    TradeOutcome × TokenPos × ℕ :=
  let outcome := buyConfirmOutcome beforeStable beforeBought usd waitOk balAt
  (outcome, buyLedgerUpdate st outcome outUnits usd, 1)

/-! ## Gas reserve clamp (part_001 `trySellIfProfitable`, lines 242-315)

Only the GALA branch carries the reserve clamp; the quote oracles are
passed as the results of the corresponding `safeQuoteExactIn` calls
(`none` models a missing/invalid quote). -/

/-- `sellable = max(0, balance - reserve)`: part_001 line 248
`const excess = Math.max(0, qty - GAS_MIN_GALA)`. -/
def sellableGala (galaBal gasMinGala : ℚ) : ℚ :=
  max 0 (galaBal - gasMinGala)

/-- Result of the part_001 sell attempt: a skip with its reason, or a
submission of the given exact input quantity. -/
inductive GalaSellStep where
  | skipReserve
  | skipNoQuote
  | skipFeeExceeds
  | skipNoRoundTrip
  | skipBelowEdge
  | submit (exactIn : ℚ)
  deriving DecidableEq, Repr

/-- The decision flow of part_001 `trySellIfProfitable` for the GALA
(fee-paying) asset: clamp to the excess above the reserve, quote the sell,
subtract the estimated fee, round-trip test, then submit the clamped
quantity. `qSellOut` and `qBuyBackOut` are the two quote results,
`feeNowStable` the fee estimate from `galaFeeInStable`. -/
def trySellIfProfitableGas (gasMinGala minProfitBps : ℚ) (galaBal : ℚ)
    (qSellOut : Option ℚ) (feeNowStable : ℚ) (qBuyBackOut : Option ℚ) :
    GalaSellStep :=
  let qty0 := galaBal
  let excess := max 0 (qty0 - gasMinGala)
  if excess ≤ 0 then .skipReserve
  else
    let qty := excess
    match qSellOut with
    | none => .skipNoQuote
    | some sellOutStable =>
      let netStable := max 0 (sellOutStable - feeNowStable)
      if ¬ (0 < netStable) then .skipFeeExceeds
      else
        match qBuyBackOut with
        | none => .skipNoRoundTrip
        | some gotBack =>
          let edgeBps := (gotBack - qty) / max (1/1000000000000) qty * 10000
          if edgeBps < minProfitBps then .skipBelowEdge
          else .submit qty

/-! ## Claim C1: the cost-basis sell gate -/

/-- Claim C1 counterexample: with the tracked position reached by two
`recordBuy(A, 10, 5)` calls (20 units, total cost 10) and
`minProfitBps = profitBufferBps = 10`, the threshold is 10.02. Quoted
proceeds of `10.02 - 1e-10` are strictly below the threshold, so the claim
as stated requires a denial, yet the code allows the sell because its
comparison carries a `1e-9` epsilon (`usdtOut + 1e-9 < threshold`). -/
theorem C1_sell_gate_counterexample :
    trySellIfProfitable 10 10 (addPurchase (addPurchase ⟨0, 0⟩ 10 5) 10 5) 20
        (some ⟨501/50 - 1/10000000000, some 500⟩) = .allow
    ∧ (501/50 - 1/10000000000 : ℚ) <
        (addPurchase (addPurchase ⟨0, 0⟩ 10 5) 10 5).cost_usdt * (1 + (10 + 10) / 10000) := by
  constructor
  · simp only [trySellIfProfitable, quoteExactIn, addPurchase]
    norm_num
  · simp only [addPurchase]
    norm_num

/-- Claim C1 (amended): when the ledger tracks `units > 0` and `cost > 0`
and the on-chain quantity and quoted proceeds are positive, the sell gate
allows exactly when the proceeds clear the threshold
`cost * (1 + (minProfitBps + profitBufferBps)/10000)` up to the code's
`1e-9` comparison epsilon (`allow ↔ threshold ≤ proceeds + 1e-9`); with no
tracked position or a non-positive on-chain quantity it denies; and in the
concrete scenario (two buys of 10 units for 5 each, 10 + 10 bps) it denies
proceeds of 10.01 and allows 10.03. -/
theorem C1_sell_gate_amended (minP bufP units cost qty out : ℚ) (tier : ℕ)
    (hu : 0 < units) (hc : 0 < cost) (hq : 0 < qty) (ho : 0 < out) :
    (trySellIfProfitable minP bufP ⟨units, cost⟩ qty (some ⟨out, some tier⟩) = .allow
        ↔ cost * (1 + (minP + bufP) / 10000) ≤ out + 1/1000000000)
    ∧ (∀ (st : TokenPos) (qty2 : ℚ) (sdk : Option RawQuote),
        ¬ 0 < qty2 ∨ ¬ 0 < st.units ∨ ¬ 0 < st.cost_usdt →
        trySellIfProfitable minP bufP st qty2 sdk = .denyNothingTracked)
    ∧ addPurchase (addPurchase ⟨0, 0⟩ 10 5) 10 5 = ⟨20, 10⟩
    ∧ trySellIfProfitable 10 10 ⟨20, 10⟩ 20 (some ⟨1001/100, some 500⟩) = .denyBelowThreshold
    ∧ trySellIfProfitable 10 10 ⟨20, 10⟩ 20 (some ⟨1003/100, some 500⟩) = .allow := by
  refine ⟨?_, ?_, ?_, ?_, ?_⟩
  · rw [trySellIfProfitable]
    rw [if_neg (by simp [hq, hu, hc])]
    rw [quoteExactIn, if_neg (not_not_intro hq)]
    simp only [Option.isSome_some, and_true]
    rw [if_pos ho]
    simp only
    rw [if_neg (not_not_intro ho)]
    split_ifs with h
    · constructor
      · intro hcontra
        exact absurd hcontra (by simp)
      · intro hle
        exact absurd h (not_lt.mpr hle)
    · simp only [iff_true_intro rfl, true_iff]
      exact not_lt.mp h
  · intro st qty2 sdk h
    rw [trySellIfProfitable, if_pos h]
  · simp only [addPurchase]
    norm_num
  · simp only [trySellIfProfitable, quoteExactIn]
    norm_num
  · simp only [trySellIfProfitable, quoteExactIn]
    norm_num

/-- Claim C1 witness: the amended gate applied at the concrete scenario,
allowing proceeds of 10.03 against the 10.02 threshold. -/
theorem C1_sell_gate_witness :
    trySellIfProfitable 10 10 ⟨20, 10⟩ 20 (some ⟨1003/100, some 500⟩) = .allow := by
  have h := (C1_sell_gate_amended 10 10 20 10 20 (1003/100) 500
    (by norm_num) (by norm_num) (by norm_num) (by norm_num)).1
  exact h.mpr (by norm_num)

/-! ## Claim C3: EMA seed and update -/

/-- Claim C3: for every price sequence and every alpha in (0,1], the EMA
after the first observation equals the first price (the null seed), and
appending one more observation p updates the EMA exactly by
`alpha * p + (1 - alpha) * ema`. -/
theorem C3_ema_update (alpha : ℚ) (_h1 : 0 < alpha) (_h2 : alpha ≤ 1) :
    (∀ p : ℚ, emaSeries alpha [p] = some p)
    ∧ (∀ (ps : List ℚ) (p e : ℚ), emaSeries alpha ps = some e →
        emaSeries alpha (ps ++ [p]) = some (alpha * p + (1 - alpha) * e)) := by
  constructor
  · intro p
    rfl
  · intro ps p e he
    unfold emaSeries at he ⊢
    rw [List.foldl_append, he]
    rfl

/-- Claim C3 witness: with alpha = 1/5, the EMA seeds at the first price 3
and the next observation 2 updates it to `1/5 * 2 + 4/5 * 3`. -/
theorem C3_ema_update_witness :
    emaSeries (1/5) [3] = some 3
    ∧ emaSeries (1/5) ([3] ++ [2]) = some ((1/5) * 2 + (1 - 1/5) * 3) := by
  have h := C3_ema_update (1/5) (by norm_num) (by norm_num)
  exact ⟨h.1 3, h.2 [3] 2 3 (h.1 3)⟩

/-! ## Claim C4: ledger non-negativity and atomic clears -/

/-- Non-negativity of both position fields is preserved by any trace of
ledger operations whose buys carry positive units and cost. -/
theorem ledger_nonneg_preserved (s : TokenPos) (ops : List LedgerOp)
    (hs : 0 ≤ s.units ∧ 0 ≤ s.cost_usdt)
    (hops : ∀ op ∈ ops, LedgerOpValid op) :
    0 ≤ (applyLedgerOps s ops).units ∧ 0 ≤ (applyLedgerOps s ops).cost_usdt := by
  induction ops generalizing s with
  | nil => exact hs
  | cons op rest ih =>
    have hop := hops op (List.mem_cons_self op rest)
    have hrest : ∀ o ∈ rest, LedgerOpValid o := fun o ho => hops o (List.mem_cons_of_mem op ho)
    cases op with
    | buy u c =>
      exact ih (addPurchase s u c)
        ⟨by simpa [addPurchase] using add_nonneg hs.1 hop.1.le,
         by simpa [addPurchase] using add_nonneg hs.2 hop.2.le⟩ hrest
    | clear =>
      exact ih (clearPosition s) (by simp [clearPosition]) hrest

/-- From a state where the two fields are zero together or positive
together, any trace of valid ledger operations preserves that coupling. -/
theorem ledger_coupled_preserved (s : TokenPos) (ops : List LedgerOp)
    (hs : (s.units = 0 ∧ s.cost_usdt = 0) ∨ (0 < s.units ∧ 0 < s.cost_usdt))
    (hops : ∀ op ∈ ops, LedgerOpValid op) :
    ((applyLedgerOps s ops).units = 0 ∧ (applyLedgerOps s ops).cost_usdt = 0)
    ∨ (0 < (applyLedgerOps s ops).units ∧ 0 < (applyLedgerOps s ops).cost_usdt) := by
  induction ops generalizing s with
  | nil => exact hs
  | cons op rest ih =>
    have hop := hops op (List.mem_cons_self op rest)
    have hrest : ∀ o ∈ rest, LedgerOpValid o := fun o ho => hops o (List.mem_cons_of_mem op ho)
    cases op with
    | buy u c =>
      refine ih (addPurchase s u c) (Or.inr ⟨?_, ?_⟩) hrest
      · rcases hs with ⟨h0, _⟩ | ⟨hp, _⟩
        · simpa [addPurchase, h0] using hop.1
        · simpa [addPurchase] using add_pos hp hop.1
      · rcases hs with ⟨_, h0⟩ | ⟨_, hp⟩
        · simpa [addPurchase, h0] using hop.2
        · simpa [addPurchase] using add_pos hp hop.2
    | clear =>
      exact ih (clearPosition s) (Or.inl (by simp [clearPosition])) hrest

/-- Claim C4: both tracked fields stay non-negative across every ledger
operation trace whose buys carry the call-site-guaranteed positive units
and cost; `clearPosition` zeroes both fields together; and in every state
reachable after a clear, one field is zero exactly when the other is. -/
theorem C4_ledger_invariants (init : TokenPos) (ops : List LedgerOp)
    (hinit : 0 ≤ init.units ∧ 0 ≤ init.cost_usdt)
    (hops : ∀ op ∈ ops, LedgerOpValid op) :
    (0 ≤ (applyLedgerOps init ops).units ∧ 0 ≤ (applyLedgerOps init ops).cost_usdt)
    ∧ clearPosition init = ⟨0, 0⟩
    ∧ (∀ ops2 : List LedgerOp, (∀ op ∈ ops2, LedgerOpValid op) →
        ((applyLedgerOps (clearPosition init) ops2).units = 0 ↔
          (applyLedgerOps (clearPosition init) ops2).cost_usdt = 0)) := by
  refine ⟨ledger_nonneg_preserved init ops hinit hops, rfl, ?_⟩
  intro ops2 hops2
  have h := ledger_coupled_preserved (clearPosition init) ops2
    (Or.inl (by simp [clearPosition])) hops2
  rcases h with ⟨h1, h2⟩ | ⟨h1, h2⟩
  · simp [h1, h2]
  · constructor
    · intro h0
      exact absurd h0 (ne_of_gt h1)
    · intro h0
      exact absurd h0 (ne_of_gt h2)

/-- Claim C4 witness: a concrete trace (buy 10 units for 5, clear, buy 4
units for 2) from the empty position keeps both fields non-negative and
coupled after the clear. -/
theorem C4_ledger_invariants_witness :
    (0 ≤ (applyLedgerOps ⟨0, 0⟩ [.buy 10 5, .clear, .buy 4 2]).units
      ∧ 0 ≤ (applyLedgerOps ⟨0, 0⟩ [.buy 10 5, .clear, .buy 4 2]).cost_usdt)
    ∧ clearPosition ⟨0, 0⟩ = ⟨0, 0⟩
    ∧ ((applyLedgerOps (clearPosition ⟨0, 0⟩) [.buy 4 2]).units = 0 ↔
        (applyLedgerOps (clearPosition ⟨0, 0⟩) [.buy 4 2]).cost_usdt = 0) := by
  have h := C4_ledger_invariants ⟨0, 0⟩ [.buy 10 5, .clear, .buy 4 2]
    (by norm_num)
    (by intro op hop
        simp only [List.mem_cons, List.not_mem_nil, or_false] at hop
        rcases hop with rfl | rfl | rfl <;> simp [LedgerOpValid])
  refine ⟨h.1, h.2.1, h.2.2 [.buy 4 2] ?_⟩
  intro op hop
  simp only [List.mem_cons, List.not_mem_nil, or_false] at hop
  rcases hop with rfl
  exact ⟨by norm_num, by norm_num⟩

/-! ## Claim C6: the momentum signal -/

/-- Claim C6: with a positive EMA and the (positive) configured threshold,
the momentum generator returns BUY exactly when the deviation
`(price - ema)/ema` exceeds the threshold, SELL exactly when it is below
the negated threshold, NONE otherwise; and on the price series
`[1, 1, 1, 1, 1.006]` with alpha 0.2 the EMA is 1.0012, the deviation is
`12/2503` (about 0.0048, above the 0.004 threshold), and the momentum
signal is BUY. -/
theorem C6_momentum (th price ema : ℚ) (_hema : 0 < ema) (hth : 0 < th) :
    (momentumSignal th price ema = .BUY ↔ (price - ema) / ema > th)
    ∧ (momentumSignal th price ema = .SELL ↔ (price - ema) / ema < -th)
    ∧ (momentumSignal th price ema = .NONE ↔
        ¬ (price - ema) / ema > th ∧ ¬ (price - ema) / ema < -th)
    ∧ emaSeries (1/5) [1, 1, 1, 1, 1006/1000] = some (2503/2500)
    ∧ (1006/1000 - 2503/2500) / (2503/2500 : ℚ) = 12/2503
    ∧ (4/1000 : ℚ) < 12/2503
    ∧ momentumSignal (4/1000) (1006/1000) (2503/2500) = .BUY := by
  refine ⟨?_, ?_, ?_, ?_, by norm_num, by norm_num, ?_⟩
  · unfold momentumSignal
    dsimp only
    split_ifs with hb hs <;> simp_all
  · unfold momentumSignal
    dsimp only
    split_ifs with hb hs
    · constructor
      · intro hcontra
        exact absurd hcontra (by simp)
      · intro hlt
        exfalso
        linarith
    · simp [hs]
    · simp [hs]
  · unfold momentumSignal
    dsimp only
    split_ifs with hb hs <;> simp_all
  · simp only [emaSeries, List.foldl, emaUpdate]
    norm_num
  · simp only [momentumSignal]
    norm_num

/-- Claim C6 witness: the momentum iff applied at the end of the concrete
scenario, giving BUY on price 1.006 against EMA 1.0012. -/
theorem C6_momentum_witness :
    momentumSignal (4/1000) (1006/1000) (2503/2500) = .BUY := by
  have h := (C6_momentum (4/1000) (1006/1000) (2503/2500)
    (by norm_num) (by norm_num)).1
  exact h.mpr (by norm_num)

/-! ## Claim C7: the fibonacci swing signal -/

/-- The swing scan keeps the low at or below the high, and when the two
extremes are equal their recorded indices coincide (strict comparisons keep
the first index, so a flat window pins both to the first element). -/
theorem swingScan_coupled (rest : List ℚ) (i : ℕ) (hi : ℚ) (hiIdx : ℕ) (lo : ℚ) (loIdx : ℕ)
    (h1 : lo ≤ hi) (h2 : hi = lo → hiIdx = loIdx) :
    (swingScan rest i (hi, hiIdx, lo, loIdx)).2.2.1 ≤ (swingScan rest i (hi, hiIdx, lo, loIdx)).1
    ∧ ((swingScan rest i (hi, hiIdx, lo, loIdx)).1 = (swingScan rest i (hi, hiIdx, lo, loIdx)).2.2.1 →
        (swingScan rest i (hi, hiIdx, lo, loIdx)).2.1 = (swingScan rest i (hi, hiIdx, lo, loIdx)).2.2.2) := by
  induction rest generalizing i hi hiIdx lo loIdx with
  | nil => exact ⟨h1, h2⟩
  | cons v rest ih =>
    rw [swingScan]
    by_cases hv : v > hi
    · rw [if_pos hv]
      by_cases hw : v < lo
      · exact absurd (lt_trans hw (lt_of_le_of_lt h1 hv)) (lt_irrefl v)
      · rw [if_neg hw]
        exact ih (i+1) v i lo loIdx (le_trans h1 (le_of_lt hv))
          (fun he => absurd he (ne_of_gt (lt_of_le_of_lt h1 hv)))
    · rw [if_neg hv]
      by_cases hw : v < lo
      · rw [if_pos hw]
        exact ih (i+1) hi hiIdx v i (le_trans (le_of_lt hw) h1)
          (fun he => absurd he.symm (ne_of_lt (lt_of_lt_of_le hw h1)))
      · rw [if_neg hw]
        exact ih (i+1) hi hiIdx lo loIdx h1 h2

/-- A flat swing window (high equals low) reports the same index for both
extremes. -/
theorem findSwing_flat (prices : List ℚ) (lookback : ℕ) (sw : Swing)
    (h : findSwing prices lookback = some sw) (hfl : sw.high = sw.low) :
    sw.highAt = sw.lowAt := by
  simp only [findSwing] at h
  cases harr : sliceLast prices lookback with
  | nil =>
    rw [harr] at h
    simp at h
  | cons v rest =>
    rw [harr] at h
    by_cases hlen : (v :: rest).length < 5
    · rw [if_pos hlen] at h
      simp at h
    · rw [if_neg hlen] at h
      have hs := Option.some.inj h
      have hcoup := swingScan_coupled rest 1 v 0 v 0 le_rfl (fun _ => rfl)
      rw [← hs] at hfl ⊢
      exact congrArg (prices.length - (v :: rest).length + ·) (hcoup.2 hfl)

/-- Claim C7: the fibonacci generator yields NONE whenever the lookback
window holds fewer than 5 points, and whenever the swing window it finds
is flat (high equals low) — no BUY or SELL is ever produced in either
case. -/
theorem C7_fibonacci_none (lookback : ℕ) (prices : List ℚ) (ema : Option ℚ) (price : ℚ) :
    ((sliceLast prices lookback).length < 5 →
      fibonacciSignal lookback prices ema price = .NONE)
    ∧ (∀ sw : Swing, findSwing prices lookback = some sw → sw.high = sw.low →
        fibonacciSignal lookback prices ema price = .NONE) := by
  constructor
  · intro hshort
    have hnone : findSwing prices lookback = none := by
      simp only [findSwing]
      rw [if_pos hshort]
    simp only [fibonacciSignal, hnone]
  · intro sw hsw hfl
    have hAt := findSwing_flat prices lookback sw hsw hfl
    have hup : ¬ (sw.highAt > sw.lowAt ∧ price ≥ ema.getD price) :=
      fun hc => absurd hc.1 (by rw [hAt]; exact lt_irrefl _)
    have hdown : ¬ (sw.lowAt > sw.highAt ∧ price ≤ ema.getD price) :=
      fun hc => absurd hc.1 (by rw [hAt]; exact lt_irrefl _)
    simp only [fibonacciSignal, hsw]
    rw [if_neg hup, if_neg hdown]

/-- Claim C7 witness: a three-point history gives NONE (window too short),
and the flat five-point history `[1,1,1,1,1]` gives NONE as well. -/
theorem C7_fibonacci_none_witness :
    fibonacciSignal 96 [1, 2, 3] none 1 = .NONE
    ∧ fibonacciSignal 96 [1, 1, 1, 1, 1] none 1 = .NONE := by
  constructor
  · exact (C7_fibonacci_none 96 [1, 2, 3] none 1).1 (by norm_num [sliceLast])
  · exact (C7_fibonacci_none 96 [1, 1, 1, 1, 1] none 1).2 ⟨1, 0, 1, 0⟩
      (by norm_num [findSwing, sliceLast, swingScan]) rfl

/-! ## Claims C2 and C8: the triangular arbitrage evaluator -/

/-- A quote oracle that always answers with output amount 0: a quote that
returns a non-positive output without throwing. -/
def zeroQuoteOracle : Token → Token → ℚ → Option (ℚ × ℕ) :=
  fun _ _ _ => some (0, 500)

/-- A quote oracle that always throws (no liquidity). -/
def noneQuoteOracle : Token → Token → ℚ → Option (ℚ × ℕ) :=
  fun _ _ _ => none

/-- A quote oracle realizing the round-trip 100 → 200 → 1 → 100.5. -/
def arbOracleRound : Token → Token → ℚ → Option (ℚ × ℕ)
  | .USDC, .GALA, _ => some (200, 500)
  | .GALA, .WETH, _ => some (1, 500)
  | .WETH, .USDC, _ => some (201/2, 500)
  | _, _, _ => none

/-- A quote oracle realizing the spec scenario hops 3 → 6 → 0.002 → 3.05. -/
def arbOracleScenario : Token → Token → ℚ → Option (ℚ × ℕ)
  | .USDC, .GALA, _ => some (6, 500)
  | .GALA, .WETH, _ => some (1/500, 500)
  | .WETH, .USDC, _ => some (61/20, 500)
  | _, _, _ => none

/-- The chain record produced by `arbOracleRound` from start amount 100. -/
def simRound : ArbSim Token :=
  { ok := true, profit := 1/2, profitBps := 50,
    legs := [⟨100, 200, .USDC, .GALA, 500⟩, ⟨200, 1, .GALA, .WETH, 500⟩,
             ⟨1, 201/2, .WETH, .USDC, 500⟩],
    finalOut := 201/2 }

/-- The chain record produced by `arbOracleScenario` from start amount 3. -/
def simScenario : ArbSim Token :=
  { ok := true, profit := 1/20, profitBps := 500/3,
    legs := [⟨3, 6, .USDC, .GALA, 500⟩, ⟨6, 1/500, .GALA, .WETH, 500⟩,
             ⟨1/500, 61/20, .WETH, .USDC, 500⟩],
    finalOut := 61/20 }

/-- Claim C2 counterexample: with a closed-loop path and a quote oracle
whose every answer has output amount 0 (non-positive), the evaluator does
not return Unavailable: it quotes all three legs on the zero amounts and
returns a full chain record. The claim requires Unavailable whenever a
leg quote returns a non-positive output. -/
theorem C2_arb_counterexample :
    zeroQuoteOracle Token.USDC .GALA 3 = some (0, 500)
    ∧ simulateTriangle zeroQuoteOracle 30 Token.USDC .GALA .WETH .USDC 3 =
        .ok { ok := false, profit := -3, profitBps := -10000,
              legs := [⟨3, 0, .USDC, .GALA, 500⟩, ⟨0, 0, .GALA, .WETH, 500⟩,
                       ⟨0, 0, .WETH, .USDC, 500⟩],
              finalOut := 0 } := by
  refine ⟨rfl, ?_⟩
  simp only [simulateTriangle, zeroQuoteOracle]
  norm_num

/-- Claim C2 (amended): for every 4-asset path and start amount, the
evaluator throws InvalidPath when the path is not a closed loop; otherwise
it quotes A→B, then B→C on the first output, then C→D on the second
output; a leg quote that is unavailable (throws) aborts the evaluation
with Unavailable and no partial chain is returned; but a leg quote that
returns a non-positive or missing output amount does not abort — its value
is fed to the next leg and a full chain is returned. -/
theorem C2_arb_eval {τ : Type} [DecidableEq τ] (quote : τ → τ → ℚ → Option (ℚ × ℕ))
    (minBps : ℚ) (t0 t1 t2 t3 : τ) (start : ℚ) :
    (t0 ≠ t3 → simulateTriangle quote minBps t0 t1 t2 t3 start = .error .invalidPath)
    ∧ (t0 = t3 → quote t0 t1 start = none →
        simulateTriangle quote minBps t0 t1 t2 t3 start = .error .unavailable)
    ∧ (∀ o1 f1, t0 = t3 → quote t0 t1 start = some (o1, f1) → quote t1 t2 o1 = none →
        simulateTriangle quote minBps t0 t1 t2 t3 start = .error .unavailable)
    ∧ (∀ o1 f1 o2 f2, t0 = t3 → quote t0 t1 start = some (o1, f1) →
        quote t1 t2 o1 = some (o2, f2) → quote t2 t3 o2 = none →
        simulateTriangle quote minBps t0 t1 t2 t3 start = .error .unavailable)
    ∧ (∀ o1 f1 o2 f2 o3 f3, t0 = t3 → quote t0 t1 start = some (o1, f1) →
        quote t1 t2 o1 = some (o2, f2) → quote t2 t3 o2 = some (o3, f3) →
        simulateTriangle quote minBps t0 t1 t2 t3 start =
          .ok { ok := decide ((o3 - start) / start * 10000 ≥ minBps)
                profit := o3 - start
                profitBps := (o3 - start) / start * 10000
                legs := [⟨start, o1, t0, t1, f1⟩, ⟨o1, o2, t1, t2, f2⟩, ⟨o2, o3, t2, t3, f3⟩]
                finalOut := o3 }) := by
  refine ⟨?_, ?_, ?_, ?_, ?_⟩
  · intro hne
    unfold simulateTriangle
    rw [if_pos hne]
  · intro heq hq1
    unfold simulateTriangle
    rw [if_neg (not_not_intro heq), hq1]
  · intro o1 f1 heq hq1 hq2
    unfold simulateTriangle
    rw [if_neg (not_not_intro heq), hq1]
    dsimp only
    rw [hq2]
  · intro o1 f1 o2 f2 heq hq1 hq2 hq3
    unfold simulateTriangle
    rw [if_neg (not_not_intro heq), hq1]
    dsimp only
    rw [hq2]
    dsimp only
    rw [hq3]
  · intro o1 f1 o2 f2 o3 f3 heq hq1 hq2 hq3
    unfold simulateTriangle
    rw [if_neg (not_not_intro heq), hq1]
    dsimp only
    rw [hq2]
    dsimp only
    rw [hq3]

/-- Claim C2 witness: the amended statement applied to a non-closed path
(InvalidPath) and to a closed path over the always-throwing oracle
(Unavailable on the first leg). -/
theorem C2_arb_eval_witness :
    simulateTriangle noneQuoteOracle 30 Token.USDC .GALA .WETH .USDT 3 = .error .invalidPath
    ∧ simulateTriangle noneQuoteOracle 30 Token.USDC .GALA .WETH .USDC 3 = .error .unavailable := by
  constructor
  · exact (C2_arb_eval noneQuoteOracle 30 Token.USDC .GALA .WETH .USDT 3).1 (by simp)
  · exact (C2_arb_eval noneQuoteOracle 30 Token.USDC .GALA .WETH .USDC 3).2.1 rfl rfl

/-- Claim C8: every successfully evaluated chain satisfies
`profitBps = (finalOut - startAmount)/startAmount * 10000` and is
actionable (`ok`) exactly when `profitBps` meets the configured minimum;
the round trip 100 → 100.5 yields `profitBps = 50`; and the scenario
USDC→GALA→WETH→USDC with start 3 and hop outputs 6, 0.002, 3.05 yields
`profitBps = 500/3` (between 166.6 and 166.7), actionable at a 30 bps
minimum. -/
theorem C8_profit_bps {τ : Type} [DecidableEq τ]
    (quote : τ → τ → ℚ → Option (ℚ × ℕ)) (minBps : ℚ) (t0 t1 t2 t3 : τ)
    (start : ℚ) (sim : ArbSim τ)
    (h : simulateTriangle quote minBps t0 t1 t2 t3 start = .ok sim) :
    (sim.profitBps = (sim.finalOut - start) / start * 10000
      ∧ (sim.ok = true ↔ sim.profitBps ≥ minBps))
    ∧ simulateTriangle arbOracleRound 30 Token.USDC .GALA .WETH .USDC 100 = .ok simRound
    ∧ simRound.profitBps = 50
    ∧ simulateTriangle arbOracleScenario 30 Token.USDC .GALA .WETH .USDC 3 = .ok simScenario
    ∧ simScenario.profitBps = 500/3
    ∧ (1666/10 : ℚ) < 500/3
    ∧ (500/3 : ℚ) < 1667/10
    ∧ simScenario.ok = true := by
  refine ⟨?_, ?_, rfl, ?_, rfl, by norm_num, by norm_num, rfl⟩
  · unfold simulateTriangle at h
    split at h
    · exact absurd h (by simp)
    · split at h
      · exact absurd h (by simp)
      · split at h
        · exact absurd h (by simp)
        · split at h
          · exact absurd h (by simp)
          · injection h with h2
            subst h2
            exact ⟨rfl, decide_eq_true_iff⟩
  · simp only [simulateTriangle, arbOracleRound, simRound]
    norm_num
  · simp only [simulateTriangle, arbOracleScenario, simScenario]
    norm_num

/-- Claim C8 witness: the profit identity and actionability applied to the
concrete round-trip record evaluated from start amount 100. -/
theorem C8_profit_bps_witness :
    simRound.profitBps = (simRound.finalOut - 100) / 100 * 10000
    ∧ (simRound.ok = true ↔ simRound.profitBps ≥ 30) := by
  have h := C8_profit_bps arbOracleRound 30 Token.USDC .GALA .WETH .USDC 100 simRound
    (by simp only [simulateTriangle, arbOracleRound, simRound]; norm_num)
  exact h.1

/-! ## Claim C5: the balance-poll confirmation fallback -/

/-- The polling loop succeeds exactly when some attempt within the
remaining fuel satisfies the balance-delta match. -/
theorem pollFrom_matches_iff (bs bb usd : ℚ) (balAt : ℕ → ℚ × ℚ) (i fuel : ℕ) :
    pollFrom bs bb usd balAt i fuel = true ↔
      ∃ j, j < fuel ∧ pollMatch bs bb usd (balAt (i + j)).1 (balAt (i + j)).2 = true := by
  induction fuel generalizing i with
  | zero => simp [pollFrom]
  | succ n ih =>
    rw [pollFrom]
    split_ifs with h
    · constructor
      · intro _
        exact ⟨0, Nat.succ_pos n, by simpa using h⟩
      · intro _
        rfl
    · rw [ih (i + 1)]
      constructor
      · rintro ⟨j, hj, hm⟩
        exact ⟨j + 1, by omega, by rw [show i + (j + 1) = i + 1 + j by omega]; exact hm⟩
      · rintro ⟨j, hj, hm⟩
        cases j with
        | zero => exact absurd (by simpa using hm) h
        | succ k => exact ⟨k, by omega, by rw [show i + 1 + k = i + (k + 1) by omega]; exact hm⟩

/-- Claim C5: after a primary-wait failure the coordinator runs the
balance polling fallback with its fixed interval (5000 ms) and capped
attempts (6); if some attempt within the cap sees the spent-asset balance
drop by at least the notional (within the code epsilons) together with an
increase of the acquired asset, the outcome is confirmed via balance poll;
if no attempt matches, the outcome is unconfirmed, the ledger is left
unchanged, and exactly one submission was performed (no re-submission). -/
theorem C5_balance_poll_fallback (st : TokenPos) (usd outUnits bs bb : ℚ)
    (balAt : ℕ → ℚ × ℚ) :
    POLL_MAX_ATTEMPTS = 6
    ∧ POLL_INTERVAL_MS = 5000
    ∧ ((∃ j, j < POLL_MAX_ATTEMPTS ∧ pollMatch bs bb usd (balAt j).1 (balAt j).2 = true) →
        (buyOneDollarRun st usd outUnits bs bb false balAt).1 = .confirmedBalancePoll)
    ∧ ((∀ j, j < POLL_MAX_ATTEMPTS → pollMatch bs bb usd (balAt j).1 (balAt j).2 = false) →
        (buyOneDollarRun st usd outUnits bs bb false balAt).1 = .unconfirmed
        ∧ (buyOneDollarRun st usd outUnits bs bb false balAt).2.1 = st
        ∧ (buyOneDollarRun st usd outUnits bs bb false balAt).2.2 = 1) := by
  refine ⟨rfl, rfl, ?_, ?_⟩
  · rintro ⟨j, hj, hm⟩
    have hp : pollFrom bs bb usd balAt 0 POLL_MAX_ATTEMPTS = true :=
      (pollFrom_matches_iff bs bb usd balAt 0 POLL_MAX_ATTEMPTS).mpr
        ⟨j, hj, by simpa using hm⟩
    simp [buyOneDollarRun, buyConfirmOutcome, hp]
  · intro hnone
    have hp : pollFrom bs bb usd balAt 0 POLL_MAX_ATTEMPTS = false := by
      cases hb : pollFrom bs bb usd balAt 0 POLL_MAX_ATTEMPTS with
      | false => rfl
      | true =>
        obtain ⟨j, hj, hm⟩ := (pollFrom_matches_iff bs bb usd balAt 0 POLL_MAX_ATTEMPTS).mp hb
        rw [Nat.zero_add] at hm
        rw [hnone j hj] at hm
        exact absurd hm (by simp)
    refine ⟨?_, ?_, rfl⟩
    · simp [buyOneDollarRun, buyConfirmOutcome, hp]
    · simp [buyOneDollarRun, buyConfirmOutcome, buyLedgerUpdate, hp]

/-- Balance oracle for the C5 witness: attempt 2 shows the stable balance
dropped from 10 to 0 and the bought balance risen from 1 to 5. -/
def pollBalWitness : ℕ → ℚ × ℚ :=
  fun j => if j = 2 then (0, 5) else (100, 1)

/-- Balance oracle for the C5 witness: balances never move. -/
def pollBalStuck : ℕ → ℚ × ℚ :=
  fun _ => (100, 1)

/-- Claim C5 witness: the fallback applied to a matching balance delta at
attempt 2 (confirmed via balance poll) and to never-moving balances
(unconfirmed, ledger untouched, one submission). -/
theorem C5_balance_poll_fallback_witness :
    (buyOneDollarRun ⟨0, 0⟩ 1 7 10 1 false pollBalWitness).1 = .confirmedBalancePoll
    ∧ (buyOneDollarRun ⟨0, 0⟩ 1 7 100 1 false pollBalStuck).1 = .unconfirmed
    ∧ (buyOneDollarRun ⟨0, 0⟩ 1 7 100 1 false pollBalStuck).2.1 = (⟨0, 0⟩ : TokenPos)
    ∧ (buyOneDollarRun ⟨0, 0⟩ 1 7 100 1 false pollBalStuck).2.2 = 1 := by
  constructor
  · exact (C5_balance_poll_fallback ⟨0, 0⟩ 1 7 10 1 pollBalWitness).2.2.1
      ⟨2, by norm_num [POLL_MAX_ATTEMPTS], by norm_num [pollBalWitness, pollMatch]⟩
  · have h := (C5_balance_poll_fallback ⟨0, 0⟩ 1 7 100 1 pollBalStuck).2.2.2
      (by intro j _
          norm_num [pollBalStuck, pollMatch])
    exact ⟨h.1, h.2.1, h.2.2⟩

/-! ## Claim C9: the gas reserve clamp -/

/-- Claim C9: the quantity of the fee-paying asset eligible for sale is
`max 0 (balance - minReserve)`, which is never negative; whenever the
part_001 sell flow reaches a submission, the submitted exact input equals
that clamped excess (the reserve itself is never offered); and with
balance 1.5 against reserve 2 the excess is 0 and the sell is skipped. -/
theorem C9_gas_reserve_clamp (bal res minP fee : ℚ) (qs qb : Option ℚ) :
    0 ≤ sellableGala bal res
    ∧ (∀ x, trySellIfProfitableGas res minP bal qs fee qb = .submit x →
        x = sellableGala bal res)
    ∧ trySellIfProfitableGas 2 minP (3/2) qs fee qb = .skipReserve
    ∧ sellableGala (3/2) 2 = 0 := by
  refine ⟨le_max_left 0 _, ?_, ?_, by norm_num [sellableGala]⟩
  · intro x hx
    rcases qs with _ | s <;> rcases qb with _ | b <;>
      simp only [trySellIfProfitableGas] at hx <;>
      split_ifs at hx <;>
      (injection hx with h
       rw [← h, sellableGala])
  · unfold trySellIfProfitableGas
    rw [if_pos (by norm_num)]

/-- Claim C9 witness: with balance 10, reserve 2, a 100-out sell quote, no
fee and a 100-out buy-back quote, the flow submits exactly the clamped
excess 8 = sellable(10, 2). -/
theorem C9_gas_reserve_clamp_witness :
    trySellIfProfitableGas 2 10 10 (some 100) 0 (some 100) = .submit 8
    ∧ (8 : ℚ) = sellableGala 10 2 := by
  have heval : trySellIfProfitableGas 2 10 10 (some 100) 0 (some 100) = .submit 8 := by
    simp only [trySellIfProfitableGas]
    norm_num
  exact ⟨heval, (C9_gas_reserve_clamp 10 2 10 0 (some 100) (some 100)).2.1 8 heval⟩

end ThinkSwapper
